import Mathlib

/-!
Verification of the document-structure extraction heuristics of the
nz-water-compliance-saas repository: the Sheet-Header Locator
(scripts/analyze_dwqar_excel_template.py), the Rule-Identifier Extractor
(scripts/extract_compliance_rules.py) and the Keyword-Bucket Scanner
(scripts/analyze_compliance_strategy.py).

The Python string primitives used by those scripts (`str.strip`, `str.lower`,
`str.split`, the `in` substring test, `str.startswith`, `len`,
`' '.join`) are embedded as structurally recursive functions over `List Char`
so that every definition is executable and kernel-reducible.
-/

namespace NZWater

/-! ## Python string primitives -/

/-- Whitespace characters stripped by Python `str.strip()` (ASCII range). -/
def isSpaceChar (c : Char) : Bool :=
  c == ' ' || c == '\t' || c == '\n' || c == '\r' || c == '\x0b' || c == '\x0c'

/-- Drop leading whitespace characters. -/
def dropLeadingSpace : List Char → List Char
  | [] => []
  | c :: rest => if isSpaceChar c then dropLeadingSpace rest else c :: rest

/-- Python `s.strip()`: remove leading and trailing whitespace. -/
def pyStrip (s : String) : String :=
  ⟨dropLeadingSpace ((dropLeadingSpace s.data.reverse).reverse)⟩

/-- Python `s.lower()` (ASCII case mapping). -/
def pyLower (s : String) : String :=
  ⟨s.data.map Char.toLower⟩

/-- Python `len(s)`: number of characters. -/
def pyLen (s : String) : Nat :=
  s.data.length

/-- Python truthiness of a string: non-empty. -/
def pyTruthy (s : String) : Bool :=
  !s.data.isEmpty

/-- Does the character list start with the given pattern? -/
def listStartsWith : List Char → List Char → Bool
  | _, [] => true
  | [], _ :: _ => false
  | c :: cs, p :: ps => c == p && listStartsWith cs ps

/-- Substring occurrence test on character lists. -/
def hasSubstr : List Char → List Char → Bool
  | [], pat => listStartsWith [] pat
  | c :: rest, pat => listStartsWith (c :: rest) pat || hasSubstr rest pat

/-- Python `pat in s` (substring containment). -/
def strContains (s pat : String) : Bool :=
  hasSubstr s.data pat.data

/-- Python `s.startswith(p)`. -/
def pyStartsWith (s p : String) : Bool :=
  listStartsWith s.data p.data

/-- Prepend a character to the first fragment of a split. -/
def consHead (c : Char) : List (List Char) → List (List Char)
  | [] => [[c]]
  | h :: t => (c :: h) :: t

/-- Python single-character `s.split(sep)` on character lists. -/
def splitChar (sep : Char) : List Char → List (List Char)
  | [] => [[]]
  | c :: rest =>
    if c == sep then [] :: splitChar sep rest
    else consHead c (splitChar sep rest)

/-- Python `s.split(sep)` for a one-character separator, on strings. -/
def pySplitChar (sep : Char) (s : String) : List String :=
  (splitChar sep s.data).map (fun l => ⟨l⟩)

/-- Membership of a character in a character list (Python `c in s`). -/
def charIn (c : Char) : List Char → Bool
  | [] => false
  | d :: rest => d == c || charIn c rest

/-- Number of occurrences of a character in a character list. -/
def countChar (c : Char) : List Char → Nat
  | [] => 0
  | d :: rest => (if d == c then 1 else 0) + countChar c rest

/-- Python `' '.join(l)` on character lists. -/
def joinSpaceChars : List (List Char) → List Char
  | [] => []
  | [x] => x
  | x :: y :: t => x ++ ' ' :: joinSpaceChars (y :: t)

/-- Python `' '.join(l)` on strings. -/
def joinSpace (l : List String) : String :=
  ⟨joinSpaceChars (l.map String.data)⟩

/-- String membership in a list of strings (Python `x in seen`). -/
def memStr (x : String) (l : List String) : Bool :=
  l.any (fun y => decide (y = x))

/-- First-occurrence deduplication: keeps the first occurrence of each
distinct element, in first-seen order.  Used as the specification of
deduplication, and as the model of Python `list(set(xs))`, whose iteration
order is implementation-defined but whose contents are exactly the distinct
elements of `xs`. -/
def dedupFirst : List String → List String
  | [] => []
  | x :: xs => x :: (dedupFirst xs).filter (fun y => !(decide (y = x)))

/-! ## Sheet-Header Locator (scripts/analyze_dwqar_excel_template.py)

A sheet is a list of rows, each row the list of its cell texts (a `None`
cell is already rendered as `""`, mirroring
`str(cell.value) if cell.value is not None else ""`). -/

/-- Domain keyword set of the header acceptance test (source line 66). -/
def headerKeywords : List String :=
  ["supply", "name", "code", "date", "water", "compliance"]

/-- Source line 63: `non_empty = [v for v in row_values if v.strip()]`. -/
def non_empty_cells (row : List String) : List String :=
  row.filter (fun v => pyTruthy (pyStrip v))

/-- Source line 66: keyword test over the joined non-empty cells,
`any(keyword in ' '.join(non_empty).lower() for keyword in [...])`. -/
def hasHeaderKeyword (row : List String) : Bool :=
  headerKeywords.any (fun k => strContains (pyLower (joinSpace (non_empty_cells row))) k)

/-- Acceptance predicate of the header scan: more than 3 non-empty cells
(source line 64) and a domain keyword in the joined text (source line 66). -/
def isHeaderRow (row : List String) : Bool :=
  decide (3 < (non_empty_cells row).length) && hasHeaderKeyword row

/-- Source lines 56-69: the scan loop over the window.  State is the pair
(data_start_row, headers), initially `(none, [])`; a row is accepted when it
satisfies the acceptance predicate and no earlier row was accepted
(`if not data_start_row and any(...)`), storing `row_idx + 1` and the row's
cell values.  `rowIdx` is the 1-based index of the current row. -/
def scanRows : List (List String) → Nat → Option Nat × List String → Option Nat × List String
  | [], _, st => st
  | row :: rest, rowIdx, (dsr, hdrs) =>
    if isHeaderRow row && dsr.isNone then
      scanRows rest (rowIdx + 1) (some (rowIdx + 1), row)
    else
      scanRows rest (rowIdx + 1) (dsr, hdrs)

/-- Specification-side first-match search: the first row (in order) accepted
by the predicate, with its 1-based index. -/
def findHdr : List (List String) → Nat → Option (Nat × List String)
  | [], _ => none
  | row :: rest, rowIdx =>
    if isHeaderRow row then some (rowIdx, row) else findHdr rest (rowIdx + 1)

/-- One entry of the column-mapping output (source lines 81-87). -/
structure HeaderDetail where
  column_index : Nat
  header_name : String
  database_mapping : String
  required : String
  data_type : String
  deriving DecidableEq

/-- Source line 75: `clean_headers = [h.strip() for h in headers if h.strip()]`. -/
def clean_headers (headers : List String) : List String :=
  (headers.filter (fun h => pyTruthy (pyStrip h))).map pyStrip

/-- Source lines 81-87: the entry built for the `idx`-th (1-based) clean
header cell, with the placeholder mapping and flags. -/
def mkHeaderDetail (idx : Nat) (h : String) : HeaderDetail :=
  { column_index := idx
    header_name := h
    database_mapping := "TO_BE_MAPPED_" ++ toString idx
    required := "UNKNOWN"
    data_type := "UNKNOWN" }

/-- Source line 79: `for idx, header in enumerate(clean_headers[:30], 1)`. -/
def headerDetailsAux : List String → Nat → List HeaderDetail
  | [], _ => []
  | h :: t, idx => mkHeaderDetail idx h :: headerDetailsAux t (idx + 1)

/-- The column-mapping output for an accepted header row (source lines 74-87). -/
def header_details (headers : List String) : List HeaderDetail :=
  headerDetailsAux ((clean_headers headers).take 30) 1

/-- The per-sheet analysis record (source lines 102-112). -/
structure SheetAnalysis where
  header_row : Option Nat
  data_start_row : Option Nat
  headers : List HeaderDetail
  deriving DecidableEq

/-- The per-sheet core of `analyze_excel_template`: scan the first 20 rows
(source line 56, `range(1, min(21, max_row + 1))`), then build the record of
source lines 102-112.  Note source line 108 stores the literal
`1 if headers else None` as the header row. -/
def analyze_excel_template (rows : List (List String)) : SheetAnalysis :=
  let st := scanRows (rows.take 20) 1 (none, [])
  { header_row := if st.2.isEmpty then none else some 1
    data_start_row := st.1
    headers := if st.2.isEmpty then [] else header_details st.2 }

/-! ## Rule-Identifier Extractor (scripts/extract_compliance_rules.py) -/

/-- Source lines 66-81: categorisation by the first matching prefix. -/
def categorize (rule_id : String) : String :=
  if pyStartsWith rule_id "T1" then "BACTERIOLOGICAL"
  else if pyStartsWith rule_id "T2" then "CHEMICAL"
  else if pyStartsWith rule_id "T3" then "PROTOZOA"
  else if pyStartsWith rule_id "T4" then "RADIOLOGICAL"
  else if pyStartsWith rule_id "M" then "MONITORING"
  else if pyStartsWith rule_id "V" then "VERIFICATION"
  else if pyStartsWith rule_id "O" then "OPERATIONAL"
  else "WATER_QUALITY"

/-- Source lines 60-63 on character lists: `if '-' in rule_id:
parts = rule_id.split('-'); if len(parts) == 2: parameter = parts[1].lower()`. -/
def paramOfChars (l : List Char) : Option String :=
  if charIn '-' l then
    match splitChar '-' l with
    | [_, p] => some (pyLower ⟨p⟩)
    | _ => none
  else none

/-- Source lines 60-63: the parameter extracted from a rule identifier. -/
def paramOf (rule_id : String) : Option String :=
  paramOfChars rule_id.data

/-- One extracted rule record (source lines 84-92). -/
structure Rule where
  ruleId : String
  category : String
  parameter : Option String
  description : String
  isActive : Bool
  applicability : String
  effectiveDate : String
  deriving DecidableEq

/-- The record built for one identifier (source lines 84-92). -/
def mkRule (rule_id : String) : Rule :=
  { ruleId := rule_id
    category := categorize rule_id
    parameter := paramOf rule_id
    description := "Compliance rule " ++ rule_id
    isActive := true
    applicability := "All supply sizes"
    effectiveDate := "2024-01-01T00:00:00.000Z" }

/-- Python value of one cell of column A: `None` or a string. -/
def cellText : Option String → String
  | none => ""
  | some v => v

/-- Source line 46: `if cell_value and str(cell_value).strip():` for a
string-or-None cell — the cell is truthy and its stripped text non-empty. -/
def truthyNonBlank : Option String → Bool
  | none => false
  | some v => pyTruthy v && pyTruthy (pyStrip v)

/-- Source lines 43-94: the extraction loop.  `seen` is the
`rule_ids_seen` set (modelled as the list of identifiers added so far);
blank cells are skipped, duplicates are skipped, and each new identifier
appends its record. -/
def extract_rules : List (Option String) → List String → List Rule
  | [], _ => []
  | c :: cs, seen =>
    if truthyNonBlank c then
      if memStr (pyStrip (cellText c)) seen then
        extract_rules cs seen
      else
        mkRule (pyStrip (cellText c)) :: extract_rules cs (pyStrip (cellText c) :: seen)
    else
      extract_rules cs seen

/-- Specification-side list of the trimmed identifiers present in the input,
in input order, blanks skipped (duplicates still present). -/
def presentIds (cells : List (Option String)) : List String :=
  cells.filterMap (fun c => if truthyNonBlank c then some (pyStrip (cellText c)) else none)

/-! ## Keyword-Bucket Scanner (scripts/analyze_compliance_strategy.py) -/

/-- The five buckets of `extract_priorities` (source lines 35-41). -/
structure Priorities where
  high_risk_areas : List String
  enforcement_focus : List String
  supply_categories : List String
  key_metrics : List String
  risk_factors : List String
  deriving DecidableEq

/-- The empty initial buckets (source lines 35-41). -/
def emptyPriorities : Priorities :=
  ⟨[], [], [], [], []⟩

/-- Keywords of the high-risk bucket (source line 55). -/
def highRiskKeywords : List String :=
  ["high risk", "critical", "priority"]

/-- Keywords of the supply-categories bucket (source line 60). -/
def categoryKeywords : List String :=
  ["category", "tier", "supplier"]

/-- Keywords of the risk-factors bucket (source line 65). -/
def riskFactorKeywords : List String :=
  ["risk factor", "risk level"]

/-- Source lines 55-57: keyword in the lower-cased line, and strict length
bounds 20 and 200 on the stripped line. -/
def condHighRisk (line : String) : Bool :=
  highRiskKeywords.any (fun k => strContains (pyLower line) k) &&
    decide (20 < pyLen (pyStrip line)) && decide (pyLen (pyStrip line) < 200)

/-- Source lines 60-62: keyword in the lower-cased line, and strict length
bounds 15 and 150 on the stripped line. -/
def condSupplyCat (line : String) : Bool :=
  categoryKeywords.any (fun k => strContains (pyLower line) k) &&
    decide (15 < pyLen (pyStrip line)) && decide (pyLen (pyStrip line) < 150)

/-- Source lines 65-67: keyword in the lower-cased line, and strict length
bounds 15 and 150 on the stripped line. -/
def condRiskFactor (line : String) : Bool :=
  riskFactorKeywords.any (fun k => strContains (pyLower line) k) &&
    decide (15 < pyLen (pyStrip line)) && decide (pyLen (pyStrip line) < 150)

/-- Source lines 51-67: the line loop, appending the stripped line to each
bucket whose condition holds (bucket membership is independent). -/
def scanLines : List String → Priorities → Priorities
  | [], p => p
  | line :: rest, p =>
    let p1 := if condHighRisk line then
        { p with high_risk_areas := p.high_risk_areas ++ [pyStrip line] } else p
    let p2 := if condSupplyCat line then
        { p1 with supply_categories := p1.supply_categories ++ [pyStrip line] } else p1
    let p3 := if condRiskFactor line then
        { p2 with risk_factors := p2.risk_factors ++ [pyStrip line] } else p2
    scanLines rest p3

/-- Source line 71: `list(set(priorities[key]))[:10]` — deduplicate (set
contents, modelled in first-occurrence order) then truncate to 10. -/
def dedupCap (l : List String) : List String :=
  (dedupFirst l).take 10

/-- Source lines 32-73: split the text into lines, scan them, then
deduplicate and cap every bucket. -/
def extract_priorities (text : String) : Priorities :=
  let raw := scanLines (pySplitChar '\n' text) emptyPriorities
  { high_risk_areas := dedupCap raw.high_risk_areas
    enforcement_focus := dedupCap raw.enforcement_focus
    supply_categories := dedupCap raw.supply_categories
    key_metrics := dedupCap raw.key_metrics
    risk_factors := dedupCap raw.risk_factors }

/-- The result dictionary view: key/value pairs in the insertion order of
source lines 35-41. -/
def prioritiesAssoc (p : Priorities) : List (String × List String) :=
  [("high_risk_areas", p.high_risk_areas),
   ("enforcement_focus", p.enforcement_focus),
   ("supply_categories", p.supply_categories),
   ("key_metrics", p.key_metrics),
   ("risk_factors", p.risk_factors)]

/-! ## Concrete inputs used in counterexamples and boundary checks -/

/-- A header row with 31 non-empty cells (keyword included), exceeding the
30-entry cap of the column-mapping output. -/
def c9Row : List String :=
  "Water" :: "Supply" :: "Name" :: "Code" ::
    (List.range 27).map (fun i => "colx" ++ toString i)

/-- A text of 15 distinct lines, each containing "critical" with stripped
length 25 (inside the exclusive bounds 20 and 200). -/
def fifteenLinesText : String :=
  "critical risk area num 01\ncritical risk area num 02\ncritical risk area num 03\ncritical risk area num 04\ncritical risk area num 05\ncritical risk area num 06\ncritical risk area num 07\ncritical risk area num 08\ncritical risk area num 09\ncritical risk area num 10\ncritical risk area num 11\ncritical risk area num 12\ncritical risk area num 13\ncritical risk area num 14\ncritical risk area num 15"

/-! ## Lemmas on the header scan -/

/-- Once a header has been accepted, the scan state never changes again
(the guard `if not data_start_row` of source line 66). -/
theorem scanRows_frozen (rows : List (List String)) (idx d : Nat) (h : List String) :
    scanRows rows idx (some d, h) = (some d, h) := by
  induction rows generalizing idx with
  | nil => rfl
  | cons row rest ih => simp [scanRows, ih]

/-- The scan loop computes the first accepted row: it agrees with the
specification-side first-match search `findHdr`. -/
theorem scanRows_eq_findHdr (rows : List (List String)) (idx : Nat) :
    scanRows rows idx (none, []) =
      (match findHdr rows idx with
        | some (i, r) => (some (i + 1), r)
        | none => (none, ([] : List String))) := by
  induction rows generalizing idx with
  | nil => rfl
  | cons row rest ih =>
    by_cases hr : isHeaderRow row = true
    · simp [scanRows, findHdr, hr, scanRows_frozen]
    · simp only [Bool.not_eq_true] at hr
      simp [scanRows, findHdr, hr, ih]

/-- The index returned by `findHdr` is at least the starting index. -/
theorem findHdr_ge (rows : List (List String)) (idx i : Nat) (r : List String)
    (h : findHdr rows idx = some (i, r)) : idx ≤ i := by
  induction rows generalizing idx with
  | nil => simp [findHdr] at h
  | cons row rest ih =>
    by_cases hr : isHeaderRow row = true
    · simp [findHdr, hr] at h
      omega
    · simp only [Bool.not_eq_true] at hr
      simp only [findHdr, hr, Bool.false_eq_true, if_false] at h
      have := ih (idx + 1) h
      omega

/-- Characterisation of a successful first-match search: the returned row is
in the list, satisfies the acceptance predicate, and every earlier row fails
it. -/
theorem findHdr_some_iff (rows : List (List String)) (idx i : Nat) (r : List String) :
    findHdr rows idx = some (idx + i, r) ↔
      (rows.get? i = some r ∧ isHeaderRow r = true ∧
        ∀ k r', k < i → rows.get? k = some r' → isHeaderRow r' = false) := by
  induction rows generalizing idx i with
  | nil =>
    constructor
    · intro h; simp [findHdr] at h
    · rintro ⟨h, -, -⟩; simp at h
  | cons row rest ih =>
    by_cases hr : isHeaderRow row = true
    · constructor
      · intro h
        simp only [findHdr, hr, if_true, Option.some.injEq, Prod.mk.injEq] at h
        obtain ⟨h1, h2⟩ := h
        have hi : i = 0 := by omega
        subst hi
        subst h2
        refine ⟨rfl, hr, ?_⟩
        intro k r' hk
        omega
      · rintro ⟨hget, hhr, hmin⟩
        cases i with
        | zero =>
          simp only [List.get?] at hget
          injection hget with hget
          subst hget
          simp [findHdr, hr]
        | succ n =>
          exfalso
          have h0 := hmin 0 row (Nat.succ_pos n) rfl
          rw [hr] at h0
          cases h0
    · simp only [Bool.not_eq_true] at hr
      constructor
      · intro h
        simp only [findHdr, hr, Bool.false_eq_true, if_false] at h
        have hge := findHdr_ge rest (idx + 1) (idx + i) r h
        have hi : ∃ n, i = n + 1 := ⟨i - 1, by omega⟩
        obtain ⟨n, hn⟩ := hi
        subst hn
        have h' : findHdr rest (idx + 1) = some ((idx + 1) + n, r) := by
          have : idx + (n + 1) = (idx + 1) + n := by omega
          rw [this] at h
          exact h
        obtain ⟨hget, hhr, hmin⟩ := (ih (idx + 1) n).mp h'
        refine ⟨hget, hhr, ?_⟩
        intro k r' hk hget'
        cases k with
        | zero =>
          injection hget' with hget'
          subst hget'
          exact hr
        | succ m =>
          exact hmin m r' (by omega) hget'
      · rintro ⟨hget, hhr, hmin⟩
        cases i with
        | zero =>
          exfalso
          simp only [List.get?] at hget
          injection hget with hget
          subst hget
          rw [hr] at hhr
          cases hhr
        | succ n =>
          have h' : findHdr rest (idx + 1) = some ((idx + 1) + n, r) := by
            refine (ih (idx + 1) n).mpr ⟨hget, hhr, ?_⟩
            intro k r' hk hget'
            exact hmin (k + 1) r' (by omega) hget'
          simp only [findHdr, hr, Bool.false_eq_true, if_false]
          have : (idx + 1) + n = idx + (n + 1) := by omega
          rw [this] at h'
          exact h'

/-- Corollary: a successful first-match search determines the scan result. -/
theorem scanRows_of_findHdr_some (rows : List (List String)) (idx j : Nat) (r : List String)
    (h : findHdr rows idx = some (j, r)) :
    scanRows rows idx (none, []) = (some (j + 1), r) := by
  rw [scanRows_eq_findHdr, h]

/-- Corollary: a failed first-match search leaves the scan state initial. -/
theorem scanRows_of_findHdr_none (rows : List (List String)) (idx : Nat)
    (h : findHdr rows idx = none) :
    scanRows rows idx (none, []) = (none, []) := by
  rw [scanRows_eq_findHdr, h]

/-- Characterisation of a failed search: no row satisfies the predicate. -/
theorem findHdr_none_iff (rows : List (List String)) (idx : Nat) :
    findHdr rows idx = none ↔
      ∀ k r', rows.get? k = some r' → isHeaderRow r' = false := by
  induction rows generalizing idx with
  | nil =>
    constructor
    · intro _ k r' h; simp at h
    · intro _; rfl
  | cons row rest ih =>
    by_cases hr : isHeaderRow row = true
    · constructor
      · intro h; simp [findHdr, hr] at h
      · intro hall
        exfalso
        have h0 := hall 0 row rfl
        rw [hr] at h0
        cases h0
    · simp only [Bool.not_eq_true] at hr
      simp only [findHdr, hr, Bool.false_eq_true, if_false]
      rw [ih (idx + 1)]
      constructor
      · intro hall k r' hget
        cases k with
        | zero =>
          injection hget with hget
          subst hget
          exact hr
        | succ m => exact hall m r' hget
      · intro hall k r' hget
        exact hall (k + 1) r' hget

/-! ## Claim theorems: Sheet-Header Locator -/

/-- C1: on the three-row example sheet the locator accepts row 2 and reports
data start 3, but the stored header row index is the literal 1 of source
line 108 (`"header_row": 1 if headers else None`), not the accepted row's
index 2: the code diverges from its own identification of the header row. -/
theorem header_row_reported_constant_one :
    (analyze_excel_template
        [["a", "b", "c"],
         ["Water", "Supply", "Name", "Code", "Date"],
         ["1", "X", "Y", "2020-01-01"]]).data_start_row = some 3 ∧
    (analyze_excel_template
        [["a", "b", "c"],
         ["Water", "Supply", "Name", "Code", "Date"],
         ["1", "X", "Y", "2020-01-01"]]).header_row = some 1 ∧
    (analyze_excel_template
        [["a", "b", "c"],
         ["Water", "Supply", "Name", "Code", "Date"],
         ["1", "X", "Y", "2020-01-01"]]).header_row ≠ some 2 := by
  refine ⟨by decide, by decide, by decide⟩

/-- C2: the scan over the first-20-row window accepts exactly the row of
lowest index that has strictly more than 3 non-empty cells and a domain
keyword in its joined non-empty text (the acceptance predicate
`isHeaderRow`); every earlier row failing the predicate is skipped, no
fallback ever occurs (the result is `none` exactly when no row of the window
qualifies), and a row with exactly 3 non-empty cells is never a candidate.
The stored value `some (i + 2)` encodes acceptance of the 0-based window row
`i`, i.e. 1-based row `i + 1`, with data start `i + 2`. -/
theorem header_locator_first_match (rows : List (List String)) :
    (∀ i r, scanRows (rows.take 20) 1 (none, []) = (some (i + 2), r) ↔
        ((rows.take 20).get? i = some r ∧ isHeaderRow r = true ∧
          ∀ k r', k < i → (rows.take 20).get? k = some r' → isHeaderRow r' = false)) ∧
    ((scanRows (rows.take 20) 1 (none, [])).1 = none ↔
        ∀ k r', (rows.take 20).get? k = some r' → isHeaderRow r' = false) ∧
    (∀ row, (non_empty_cells row).length = 3 → isHeaderRow row = false) := by
  refine ⟨?_, ?_, ?_⟩
  · intro i r
    cases hfd : findHdr (rows.take 20) 1 with
    | none =>
      rw [scanRows_of_findHdr_none (rows.take 20) 1 hfd]
      constructor
      · intro h
        exfalso
        have h1 : (none : Option Nat) = some (i + 2) := congrArg Prod.fst h
        exact Option.noConfusion h1
      · rintro ⟨hget, hhr, hmin⟩
        exfalso
        have := (findHdr_none_iff (rows.take 20) 1).mp hfd i r hget
        rw [hhr] at this
        cases this
    | some jr =>
      obtain ⟨j, r'⟩ := jr
      rw [scanRows_of_findHdr_some (rows.take 20) 1 j r' hfd]
      constructor
      · intro h
        have h1 : some (j + 1) = some (i + 2) := congrArg Prod.fst h
        have h2 : r' = r := congrArg Prod.snd h
        injection h1 with h1
        have hj : j = 1 + i := by omega
        rw [hj, h2] at hfd
        exact (findHdr_some_iff (rows.take 20) 1 i r).mp hfd
      · intro hprops
        have h' := (findHdr_some_iff (rows.take 20) 1 i r).mpr hprops
        rw [hfd] at h'
        injection h' with h'
        have hj : j = 1 + i := congrArg Prod.fst h'
        have hr2 : r' = r := congrArg Prod.snd h'
        rw [hj, hr2]
        have h12 : 1 + i + 1 = i + 2 := by omega
        rw [h12]
  · cases hfd : findHdr (rows.take 20) 1 with
    | none =>
      rw [scanRows_of_findHdr_none (rows.take 20) 1 hfd]
      exact iff_of_true rfl ((findHdr_none_iff (rows.take 20) 1).mp hfd)
    | some jr =>
      obtain ⟨j, r'⟩ := jr
      rw [scanRows_of_findHdr_some (rows.take 20) 1 j r' hfd]
      constructor
      · intro h
        exfalso
        have h1 : some (j + 1) = (none : Option Nat) := h
        exact Option.noConfusion h1
      · intro hall
        exfalso
        have hge := findHdr_ge (rows.take 20) 1 j r' hfd
        have hj : j = 1 + (j - 1) := by omega
        rw [hj] at hfd
        obtain ⟨hget, hhr, -⟩ := (findHdr_some_iff (rows.take 20) 1 (j - 1) r').mp hfd
        have := hall (j - 1) r' hget
        rw [hhr] at this
        cases this
  · intro row h
    simp [isHeaderRow, h]

/-- Concrete instance of the first-match property: in a window whose first
row has 5 non-empty generic cells (no keyword) and whose second row has 4
cells including the keywords, the scan accepts the second row, which the
theorem certifies to satisfy the acceptance predicate. -/
theorem header_locator_first_match_witness :
    isHeaderRow ["Water", "Supply", "Name", "x"] = true :=
  (((header_locator_first_match
      [["q", "w", "e", "r", "t"], ["Water", "Supply", "Name", "x"]]).1 1
      ["Water", "Supply", "Name", "x"]).mp (by decide)).2.1

/-! ## Lemmas on the character-list primitives -/

/-- Character membership distributes over append. -/
theorem charIn_append (c : Char) (a b : List Char) :
    charIn c (a ++ b) = (charIn c a || charIn c b) := by
  induction a with
  | nil => simp [charIn]
  | cons d a' ih => simp [charIn, ih, Bool.or_assoc]

/-- A split never produces an empty fragment list. -/
theorem splitChar_ne_nil (sep : Char) (l : List Char) : splitChar sep l ≠ [] := by
  cases l with
  | nil => exact List.cons_ne_nil _ _
  | cons c rest =>
    simp only [splitChar]
    by_cases h : (c == sep) = true
    · simp only [h, if_true]
      exact List.cons_ne_nil _ _
    · simp only [h, if_false]
      cases hs : splitChar sep rest with
      | nil => exact List.cons_ne_nil _ _
      | cons a t => exact List.cons_ne_nil _ _

/-- Splitting a list free of the separator yields the single fragment. -/
theorem splitChar_no_sep (sep : Char) (l : List Char) (h : charIn sep l = false) :
    splitChar sep l = [l] := by
  induction l with
  | nil => rfl
  | cons c rest ih =>
    simp only [charIn, Bool.or_eq_false_iff] at h
    obtain ⟨h1, h2⟩ := h
    simp only [splitChar, h1, Bool.false_eq_true, if_false, ih h2, consHead]

/-- Splitting at the first separator occurrence: a separator-free prefix
becomes the first fragment. -/
theorem splitChar_sep_append (sep : Char) (a b : List Char) (ha : charIn sep a = false) :
    splitChar sep (a ++ sep :: b) = a :: splitChar sep b := by
  induction a with
  | nil => simp [splitChar]
  | cons c a' ih =>
    simp only [charIn, Bool.or_eq_false_iff] at ha
    obtain ⟨h1, h2⟩ := ha
    have hstep : splitChar sep ((c :: a') ++ sep :: b)
        = consHead c (splitChar sep (a' ++ sep :: b)) := by
      simp only [List.cons_append, splitChar, h1, Bool.false_eq_true, if_false]
      rfl
    rw [hstep, ih h2]
    rfl

/-- The number of fragments is the number of separators plus one. -/
theorem splitChar_length (sep : Char) (l : List Char) :
    (splitChar sep l).length = countChar sep l + 1 := by
  induction l with
  | nil => rfl
  | cons c rest ih =>
    by_cases h : (c == sep) = true
    · simp only [splitChar, countChar, h, if_true, List.length_cons, ih]
      omega
    · have h' : (c == sep) = false := by simpa using h
      simp only [splitChar, countChar, h', Bool.false_eq_true, if_false]
      cases hs : splitChar sep rest with
      | nil => exact absurd hs (splitChar_ne_nil sep rest)
      | cons x t =>
        rw [hs] at ih
        simp only [consHead, List.length_cons] at ih ⊢
        omega

/-! ## Lemmas on first-occurrence deduplication -/

/-- Two filters commute. -/
theorem filter_swap (p q : String → Bool) (l : List String) :
    (l.filter p).filter q = (l.filter q).filter p := by
  induction l with
  | nil => rfl
  | cons a t ih =>
    by_cases hp : p a = true <;> by_cases hq : q a = true <;>
      simp [List.filter_cons, hp, hq, ih]

/-- Filtering out an element the predicate already rejects changes nothing. -/
theorem filter_after_remove (p : String → Bool) (a : String) (hp : p a = false)
    (l : List String) :
    (l.filter (fun y => !(decide (y = a)))).filter p = l.filter p := by
  induction l with
  | nil => rfl
  | cons b t ih =>
    by_cases hb : b = a
    · subst hb
      simp [List.filter_cons, hp, ih]
    · simp [List.filter_cons, hb, ih]

/-- Deduplication commutes with filtering. -/
theorem dedupFirst_filter (q : String → Bool) (l : List String) :
    dedupFirst (l.filter q) = (dedupFirst l).filter q := by
  induction l with
  | nil => rfl
  | cons a t ih =>
    by_cases hq : q a = true
    · simp only [List.filter_cons, hq, if_true, dedupFirst, ih]
      rw [filter_swap]
    · have hq' : q a = false := by simpa using hq
      simp only [List.filter_cons, hq', Bool.false_eq_true, if_false, dedupFirst, ih]
      rw [filter_after_remove q a hq']

/-- Deduplication preserves membership. -/
theorem mem_dedupFirst (x : String) (l : List String) : x ∈ dedupFirst l ↔ x ∈ l := by
  induction l with
  | nil => simp [dedupFirst]
  | cons a t ih =>
    simp only [dedupFirst, List.mem_cons, List.mem_filter, ih, Bool.not_eq_true',
      decide_eq_false_iff_not]
    by_cases hx : x = a <;> simp [hx]

/-- Deduplication produces a list without duplicates. -/
theorem dedupFirst_nodup (l : List String) : (dedupFirst l).Nodup := by
  induction l with
  | nil => exact List.nodup_nil
  | cons a t ih =>
    simp only [dedupFirst]
    rw [List.nodup_cons]
    constructor
    · intro hmem
      rw [List.mem_filter] at hmem
      have := hmem.2
      simp at this
    · exact List.Nodup.filter _ ih

/-- Extending the seen-set by one identifier filters that identifier out. -/
theorem filter_not_mem_cons (rest : List String) (rid : String) (seen : List String) :
    rest.filter (fun x => !(memStr x (rid :: seen)))
      = (rest.filter (fun x => !(memStr x seen))).filter (fun y => !(decide (y = rid))) := by
  induction rest with
  | nil => rfl
  | cons b t ih =>
    have hexp : memStr b (rid :: seen) = (decide (rid = b) || memStr b seen) := by
      simp [memStr, List.any_cons]
    by_cases hr : b = rid
    · subst hr
      have h1 : memStr b (b :: seen) = true := by simp [memStr]
      by_cases hm : memStr b seen = true
      · simp [List.filter_cons, h1, hm, ih]
      · simp only [Bool.not_eq_true] at hm
        simp [List.filter_cons, h1, hm, ih]
    · have hr' : decide (rid = b) = false := by
        simp
        intro h
        exact hr h.symm
      by_cases hm : memStr b seen = true
      · simp [List.filter_cons, hexp, hr', hm, ih]
      · simp only [Bool.not_eq_true] at hm
        simp [List.filter_cons, hexp, hr', hm, ih, hr]

/-- The identifiers of the extracted records are the not-yet-seen present
identifiers, deduplicated in first-seen order. -/
theorem extract_rules_map_ruleId (cells : List (Option String)) (seen : List String) :
    (extract_rules cells seen).map (fun r => r.ruleId)
      = dedupFirst ((presentIds cells).filter (fun x => !(memStr x seen))) := by
  induction cells generalizing seen with
  | nil => rfl
  | cons c cs ih =>
    by_cases hb : truthyNonBlank c = true
    · by_cases hm : memStr (pyStrip (cellText c)) seen = true
      · simp only [extract_rules, hb, if_true, hm]
        rw [ih seen]
        simp [presentIds, List.filterMap_cons, hb, List.filter_cons, hm]
      · simp only [Bool.not_eq_true] at hm
        simp only [extract_rules, hb, if_true, hm, Bool.false_eq_true, if_false,
          List.map_cons]
        rw [ih (pyStrip (cellText c) :: seen)]
        simp only [presentIds, List.filterMap_cons, hb, if_true]
        rw [List.filter_cons]
        simp only [hm, Bool.not_false, if_true]
        simp only [dedupFirst]
        rw [filter_not_mem_cons, dedupFirst_filter]
        simp [mkRule]
    · simp only [Bool.not_eq_true] at hb
      simp only [extract_rules, hb, Bool.false_eq_true, if_false]
      rw [ih seen]
      simp [presentIds, List.filterMap_cons, hb]

/-! ## Claim theorems: Rule-Identifier Extractor -/

/-- C3: the category is assigned by the first matching prefix test in the
order T1, T2, T3, T4, M, V, O, with WATER_QUALITY when no prefix matches;
the parameter is the lower-cased substring after the hyphen exactly when the
identifier contains exactly one hyphen, and is undefined when the hyphen
count differs from one.  Concretely, "T1.8-ecol" is BACTERIOLOGICAL with
parameter "ecol", "T3.2-Crypto" is PROTOZOA with parameter "crypto", and
"X9.1" is WATER_QUALITY with no parameter. -/
theorem rule_classification :
    (∀ s : String, pyStartsWith s "T1" = true → categorize s = "BACTERIOLOGICAL") ∧
    (∀ s : String, pyStartsWith s "T1" = false → pyStartsWith s "T2" = true →
        categorize s = "CHEMICAL") ∧
    (∀ s : String, pyStartsWith s "T1" = false → pyStartsWith s "T2" = false →
        pyStartsWith s "T3" = true → categorize s = "PROTOZOA") ∧
    (∀ s : String, pyStartsWith s "T1" = false → pyStartsWith s "T2" = false →
        pyStartsWith s "T3" = false → pyStartsWith s "T4" = true →
        categorize s = "RADIOLOGICAL") ∧
    (∀ s : String, pyStartsWith s "T1" = false → pyStartsWith s "T2" = false →
        pyStartsWith s "T3" = false → pyStartsWith s "T4" = false →
        pyStartsWith s "M" = true → categorize s = "MONITORING") ∧
    (∀ s : String, pyStartsWith s "T1" = false → pyStartsWith s "T2" = false →
        pyStartsWith s "T3" = false → pyStartsWith s "T4" = false →
        pyStartsWith s "M" = false → pyStartsWith s "V" = true →
        categorize s = "VERIFICATION") ∧
    (∀ s : String, pyStartsWith s "T1" = false → pyStartsWith s "T2" = false →
        pyStartsWith s "T3" = false → pyStartsWith s "T4" = false →
        pyStartsWith s "M" = false → pyStartsWith s "V" = false →
        pyStartsWith s "O" = true → categorize s = "OPERATIONAL") ∧
    (∀ s : String, pyStartsWith s "T1" = false → pyStartsWith s "T2" = false →
        pyStartsWith s "T3" = false → pyStartsWith s "T4" = false →
        pyStartsWith s "M" = false → pyStartsWith s "V" = false →
        pyStartsWith s "O" = false → categorize s = "WATER_QUALITY") ∧
    (∀ a b : List Char, charIn '-' a = false → charIn '-' b = false →
        paramOf ⟨a ++ '-' :: b⟩ = some (pyLower ⟨b⟩)) ∧
    (∀ s : String, countChar '-' s.data ≠ 1 → paramOf s = none) ∧
    (mkRule "T1.8-ecol").category = "BACTERIOLOGICAL" ∧
    (mkRule "T1.8-ecol").parameter = some "ecol" ∧
    (mkRule "T3.2-Crypto").category = "PROTOZOA" ∧
    (mkRule "T3.2-Crypto").parameter = some "crypto" ∧
    (mkRule "X9.1").category = "WATER_QUALITY" ∧
    (mkRule "X9.1").parameter = none := by
  refine ⟨?_, ?_, ?_, ?_, ?_, ?_, ?_, ?_, ?_, ?_,
    by decide, by decide, by decide, by decide, by decide, by decide⟩
  · intro s h1; simp [categorize, h1]
  · intro s h1 h2; simp [categorize, h1, h2]
  · intro s h1 h2 h3; simp [categorize, h1, h2, h3]
  · intro s h1 h2 h3 h4; simp [categorize, h1, h2, h3, h4]
  · intro s h1 h2 h3 h4 h5; simp [categorize, h1, h2, h3, h4, h5]
  · intro s h1 h2 h3 h4 h5 h6; simp [categorize, h1, h2, h3, h4, h5, h6]
  · intro s h1 h2 h3 h4 h5 h6 h7; simp [categorize, h1, h2, h3, h4, h5, h6, h7]
  · intro s h1 h2 h3 h4 h5 h6 h7; simp [categorize, h1, h2, h3, h4, h5, h6, h7]
  · intro a b ha hb
    show paramOfChars (a ++ '-' :: b) = some (pyLower ⟨b⟩)
    unfold paramOfChars
    have hc : charIn '-' (a ++ '-' :: b) = true := by
      rw [charIn_append]
      have hh : charIn '-' ('-' :: b) = true := by simp [charIn]
      rw [hh, Bool.or_true]
    rw [if_pos hc, splitChar_sep_append '-' a b ha, splitChar_no_sep '-' b hb]
  · intro s h
    show paramOfChars s.data = none
    unfold paramOfChars
    by_cases hc : charIn '-' s.data = true
    · rw [if_pos hc]
      have hlen : (splitChar '-' s.data).length ≠ 2 := by
        rw [splitChar_length]
        omega
      cases hsp : splitChar '-' s.data with
      | nil => rfl
      | cons x t =>
        cases t with
        | nil => rfl
        | cons y t2 =>
          cases t2 with
          | nil =>
            exfalso
            rw [hsp] at hlen
            simp at hlen
          | cons z t3 => rfl
    · rw [if_neg hc]

/-- Concrete instance of the classification: on "T1.8-ecol" the prefix test
hypothesis holds and the category conjunct yields BACTERIOLOGICAL, and the
hyphen-decomposition conjunct yields the lower-cased parameter. -/
theorem rule_classification_witness :
    categorize "T1.8-ecol" = "BACTERIOLOGICAL" ∧
    paramOf ⟨['T', '1', '.', '8'] ++ '-' :: ['e', 'c', 'o', 'l']⟩
      = some (pyLower ⟨['e', 'c', 'o', 'l']⟩) ∧
    paramOf "X9.1" = none :=
  ⟨rule_classification.1 "T1.8-ecol" (by decide),
   rule_classification.2.2.2.2.2.2.2.2.1 ['T', '1', '.', '8'] ['e', 'c', 'o', 'l']
     (by decide) (by decide),
   rule_classification.2.2.2.2.2.2.2.2.2.1 "X9.1" (by decide)⟩

/-- C4: the extractor emits exactly one record per distinct trimmed
non-blank identifier, in first-seen order (the record identifiers are the
first-occurrence deduplication of the trimmed non-blank cell values in input
order); blank or `None` cells contribute nothing, membership is preserved,
and the output identifiers contain no duplicate. -/
theorem extract_rules_first_seen (cells : List (Option String)) :
    (extract_rules cells []).map (fun r => r.ruleId) = dedupFirst (presentIds cells) ∧
    (∀ s : String,
        s ∈ (extract_rules cells []).map (fun r => r.ruleId) ↔ s ∈ presentIds cells) ∧
    ((extract_rules cells []).map (fun r => r.ruleId)).Nodup := by
  have hmain : (extract_rules cells []).map (fun r => r.ruleId)
      = dedupFirst (presentIds cells) := by
    have h := extract_rules_map_ruleId cells []
    simpa [memStr] using h
  refine ⟨hmain, ?_, ?_⟩
  · intro s
    rw [hmain]
    exact mem_dedupFirst s (presentIds cells)
  · rw [hmain]
    exact dedupFirst_nodup (presentIds cells)

/-- C5: the extractor is a deterministic function of its input, an input
holding the same identifier three times yields exactly one record, and more
generally every emitted identifier occurs exactly once in the output
(deduplication by exact string match of the trimmed identifier). -/
theorem extract_rules_deterministic_dedup :
    (∀ cells : List (Option String), extract_rules cells [] = extract_rules cells []) ∧
    (∀ cells : List (Option String), ∀ s : String,
        s ∈ (extract_rules cells []).map (fun r => r.ruleId) →
        ((extract_rules cells []).map (fun r => r.ruleId)).count s = 1) ∧
    extract_rules [some "T1.8-ecol", some "T1.8-ecol", some "T1.8-ecol"] []
      = [mkRule "T1.8-ecol"] := by
  refine ⟨fun _ => rfl, ?_, by decide⟩
  intro cells s hs
  have hnod : ((extract_rules cells []).map (fun r => r.ruleId)).Nodup := by
    have h := extract_rules_map_ruleId cells []
    have hmain : (extract_rules cells []).map (fun r => r.ruleId)
        = dedupFirst (presentIds cells) := by simpa [memStr] using h
    rw [hmain]
    exact dedupFirst_nodup (presentIds cells)
  exact List.count_eq_one_of_mem hnod hs

/-- Concrete instance: a singleton input yields its identifier exactly once. -/
theorem extract_rules_deterministic_dedup_witness :
    ((extract_rules [some "T1.8-ecol"] []).map (fun r => r.ruleId)).count "T1.8-ecol" = 1 :=
  extract_rules_deterministic_dedup.2.1 [some "T1.8-ecol"] "T1.8-ecol" (by decide)

/-! ## Lemmas on the Keyword-Bucket Scanner -/

/-- The line loop appends to the high-risk bucket exactly the stripped lines
satisfying the high-risk condition, in order. -/
theorem scanLines_high (lines : List String) (p : Priorities) :
    (scanLines lines p).high_risk_areas
      = p.high_risk_areas ++ (lines.filter condHighRisk).map pyStrip := by
  induction lines generalizing p with
  | nil => simp [scanLines]
  | cons line rest ih =>
    simp only [scanLines]
    by_cases h1 : condHighRisk line = true <;>
      by_cases h2 : condSupplyCat line = true <;>
        by_cases h3 : condRiskFactor line = true <;>
          simp [h1, h2, h3, ih, List.filter_cons]

/-- The line loop appends to the supply-categories bucket exactly the
stripped lines satisfying its condition, in order. -/
theorem scanLines_supply (lines : List String) (p : Priorities) :
    (scanLines lines p).supply_categories
      = p.supply_categories ++ (lines.filter condSupplyCat).map pyStrip := by
  induction lines generalizing p with
  | nil => simp [scanLines]
  | cons line rest ih =>
    simp only [scanLines]
    by_cases h1 : condHighRisk line = true <;>
      by_cases h2 : condSupplyCat line = true <;>
        by_cases h3 : condRiskFactor line = true <;>
          simp [h1, h2, h3, ih, List.filter_cons]

/-- The line loop appends to the risk-factors bucket exactly the stripped
lines satisfying its condition, in order. -/
theorem scanLines_risk (lines : List String) (p : Priorities) :
    (scanLines lines p).risk_factors
      = p.risk_factors ++ (lines.filter condRiskFactor).map pyStrip := by
  induction lines generalizing p with
  | nil => simp [scanLines]
  | cons line rest ih =>
    simp only [scanLines]
    by_cases h1 : condHighRisk line = true <;>
      by_cases h2 : condSupplyCat line = true <;>
        by_cases h3 : condRiskFactor line = true <;>
          simp [h1, h2, h3, ih, List.filter_cons]

/-- The line loop never touches the enforcement-focus bucket. -/
theorem scanLines_enforcement (lines : List String) (p : Priorities) :
    (scanLines lines p).enforcement_focus = p.enforcement_focus := by
  induction lines generalizing p with
  | nil => simp [scanLines]
  | cons line rest ih =>
    simp only [scanLines]
    by_cases h1 : condHighRisk line = true <;>
      by_cases h2 : condSupplyCat line = true <;>
        by_cases h3 : condRiskFactor line = true <;>
          simp [h1, h2, h3, ih]

/-- The line loop never touches the key-metrics bucket. -/
theorem scanLines_key_metrics (lines : List String) (p : Priorities) :
    (scanLines lines p).key_metrics = p.key_metrics := by
  induction lines generalizing p with
  | nil => simp [scanLines]
  | cons line rest ih =>
    simp only [scanLines]
    by_cases h1 : condHighRisk line = true <;>
      by_cases h2 : condSupplyCat line = true <;>
        by_cases h3 : condRiskFactor line = true <;>
          simp [h1, h2, h3, ih]

/-- A capped bucket holds at most 10 entries. -/
theorem dedupCap_length_le (l : List String) : (dedupCap l).length ≤ 10 := by
  have h : (dedupCap l).length = min 10 (dedupFirst l).length := by
    simp [dedupCap, List.length_take]
  rw [h]
  exact Nat.min_le_left _ _

/-- A capped bucket holds no duplicates. -/
theorem dedupCap_nodup (l : List String) : (dedupCap l).Nodup :=
  List.Nodup.sublist (List.take_sublist 10 (dedupFirst l)) (dedupFirst_nodup l)

/-! ## Claim theorems: Keyword-Bucket Scanner -/

/-- C6: a line's stripped text is appended to the high-risk bucket exactly
when the line satisfies the high-risk condition — a keyword among
"high risk", "critical", "priority" in the lower-cased line, and stripped
length strictly between 20 and 200; both bounds are exclusive (a 20-char
line containing "critical" is excluded, a 21-char one included), and the
supply-categories and risk-factors buckets use the same strict comparisons
with bounds 15 and 150. -/
theorem keyword_bucket_boundaries :
    (∀ lines : List String,
        (scanLines lines emptyPriorities).high_risk_areas
          = (lines.filter condHighRisk).map pyStrip) ∧
    (∀ lines : List String,
        (scanLines lines emptyPriorities).supply_categories
          = (lines.filter condSupplyCat).map pyStrip) ∧
    (∀ lines : List String,
        (scanLines lines emptyPriorities).risk_factors
          = (lines.filter condRiskFactor).map pyStrip) ∧
    condHighRisk "criticalcriticalcrit" = false ∧
    condHighRisk "criticalcriticalcriti" = true ∧
    (scanLines ["criticalcriticalcrit"] emptyPriorities).high_risk_areas = [] ∧
    (scanLines ["criticalcriticalcriti"] emptyPriorities).high_risk_areas
      = ["criticalcriticalcriti"] ∧
    (∀ line : String, condHighRisk line = true →
        (strContains (pyLower line) "high risk" = true ∨
          strContains (pyLower line) "critical" = true ∨
          strContains (pyLower line) "priority" = true)) ∧
    (∀ line : String, condHighRisk line = true →
        20 < pyLen (pyStrip line) ∧ pyLen (pyStrip line) < 200) ∧
    (∀ line : String, condSupplyCat line = true →
        15 < pyLen (pyStrip line) ∧ pyLen (pyStrip line) < 150) ∧
    (∀ line : String, condRiskFactor line = true →
        15 < pyLen (pyStrip line) ∧ pyLen (pyStrip line) < 150) ∧
    (∀ line : String, strContains (pyLower line) "critical" = true →
        20 < pyLen (pyStrip line) → pyLen (pyStrip line) < 200 →
        condHighRisk line = true) := by
  refine ⟨?_, ?_, ?_, by decide, by decide, by decide, by decide, ?_, ?_, ?_, ?_, ?_⟩
  · intro lines
    rw [scanLines_high lines emptyPriorities]
    rfl
  · intro lines
    rw [scanLines_supply lines emptyPriorities]
    rfl
  · intro lines
    rw [scanLines_risk lines emptyPriorities]
    rfl
  · intro line h
    simp only [condHighRisk, Bool.and_eq_true, decide_eq_true_eq] at h
    have hk := h.1.1
    simp only [highRiskKeywords, List.any_cons, List.any_nil, Bool.or_eq_true,
      Bool.or_eq_false_iff] at hk
    tauto
  · intro line h
    simp only [condHighRisk, Bool.and_eq_true, decide_eq_true_eq] at h
    exact ⟨h.1.2, h.2⟩
  · intro line h
    simp only [condSupplyCat, Bool.and_eq_true, decide_eq_true_eq] at h
    exact ⟨h.1.2, h.2⟩
  · intro line h
    simp only [condRiskFactor, Bool.and_eq_true, decide_eq_true_eq] at h
    exact ⟨h.1.2, h.2⟩
  · intro line hk h20 h200
    simp [condHighRisk, highRiskKeywords, List.any_cons, hk, h20, h200]

/-- Concrete instance: the 21-character boundary line satisfies the
extracted strict bounds. -/
theorem keyword_bucket_boundaries_witness :
    20 < pyLen (pyStrip "criticalcriticalcriti") ∧
    pyLen (pyStrip "criticalcriticalcriti") < 200 :=
  keyword_bucket_boundaries.2.2.2.2.2.2.2.2.1 "criticalcriticalcriti" (by decide)

/-- C7: every bucket of the scanner's result holds at most 10 pairwise
distinct entries, and an input with 15 distinct qualifying lines for the
high-risk bucket yields exactly 10 entries there. -/
theorem bucket_cap_ten (text : String) :
    (extract_priorities text).high_risk_areas.length ≤ 10 ∧
    (extract_priorities text).high_risk_areas.Nodup ∧
    (extract_priorities text).enforcement_focus.length ≤ 10 ∧
    (extract_priorities text).enforcement_focus.Nodup ∧
    (extract_priorities text).supply_categories.length ≤ 10 ∧
    (extract_priorities text).supply_categories.Nodup ∧
    (extract_priorities text).key_metrics.length ≤ 10 ∧
    (extract_priorities text).key_metrics.Nodup ∧
    (extract_priorities text).risk_factors.length ≤ 10 ∧
    (extract_priorities text).risk_factors.Nodup ∧
    (extract_priorities fifteenLinesText).high_risk_areas.length = 10 :=
  ⟨dedupCap_length_le _, dedupCap_nodup _, dedupCap_length_le _, dedupCap_nodup _,
   dedupCap_length_le _, dedupCap_nodup _, dedupCap_length_le _, dedupCap_nodup _,
   dedupCap_length_le _, dedupCap_nodup _, by decide⟩

/-- C8: the scanner is a deterministic function — two runs on the same text
produce identical bucket contents (the embedding models the set-conversion
of source line 71 as a deterministic deduplication, as CPython's in-process
set iteration is a function of the inserted elements). -/
theorem scanner_deterministic (t1 t2 : String) (h : t1 = t2) :
    extract_priorities t1 = extract_priorities t2 := by
  rw [h]

/-- Concrete instance: two runs on the same literal text coincide. -/
theorem scanner_deterministic_witness :
    extract_priorities "critical" = extract_priorities "critical" :=
  scanner_deterministic "critical" "critical" rfl

/-- C10: the result dictionary has exactly the five keys in insertion
order, and the enforcement-focus and key-metrics buckets are always empty
because no scanning rule ever appends to them. -/
theorem unpopulated_buckets (text : String) :
    (prioritiesAssoc (extract_priorities text)).map Prod.fst
      = ["high_risk_areas", "enforcement_focus", "supply_categories", "key_metrics",
         "risk_factors"] ∧
    (extract_priorities text).enforcement_focus = [] ∧
    (extract_priorities text).key_metrics = [] := by
  refine ⟨rfl, ?_, ?_⟩
  · show dedupCap (scanLines (pySplitChar '\n' text) emptyPriorities).enforcement_focus = []
    rw [scanLines_enforcement]
    rfl
  · show dedupCap (scanLines (pySplitChar '\n' text) emptyPriorities).key_metrics = []
    rw [scanLines_key_metrics]
    rfl

/-! ## Lemmas on the column-mapping output -/

/-- The enumeration preserves length. -/
theorem headerDetailsAux_length (l : List String) (idx : Nat) :
    (headerDetailsAux l idx).length = l.length := by
  induction l generalizing idx with
  | nil => rfl
  | cons h t ih => simp [headerDetailsAux, ih]

/-- The `j`-th enumerated entry is the detail record of the `j`-th header
cell at ordinal `idx + j`. -/
theorem headerDetailsAux_get? (l : List String) (idx j : Nat) :
    (headerDetailsAux l idx).get? j
      = (l.get? j).map (fun c => mkHeaderDetail (idx + j) c) := by
  induction l generalizing idx j with
  | nil => simp [headerDetailsAux]
  | cons h t ih =>
    cases j with
    | zero => simp [headerDetailsAux]
    | succ n =>
      have hL : (headerDetailsAux (h :: t) idx).get? (n + 1)
          = (headerDetailsAux t (idx + 1)).get? n := rfl
      have hR : ((h :: t).get? (n + 1)) = t.get? n := rfl
      rw [hL, hR, ih (idx + 1) n]
      have hidx : idx + 1 + n = idx + (n + 1) := by omega
      rw [hidx]

/-! ## Claim theorems: column mapping -/

/-- C9 counterexample: a sheet whose accepted header row has 31 non-empty
cells produces a column mapping with only 30 entries, so the mapping does
not contain one entry per detected header cell. -/
theorem column_mapping_cap_counterexample :
    (clean_headers c9Row).length = 31 ∧
    (analyze_excel_template [c9Row]).headers.length = 30 ∧
    ¬((analyze_excel_template [c9Row]).headers.length
        = (clean_headers c9Row).length) := by
  refine ⟨by decide, by decide, by decide⟩

/-- C9 (amended): the column-mapping output has one entry per detected
(non-empty, trimmed) header cell among the first 30 only — its length is
the minimum of 30 and the number of detected cells, and the entry of each
detected cell with position below the cap carries the 1-based ordinal, the
header text and the unresolved placeholders. -/
theorem header_details_capped (headers : List String) :
    (header_details headers).length = min 30 (clean_headers headers).length ∧
    (∀ j c, (clean_headers headers).get? j = some c → j < 30 →
        (header_details headers).get? j = some (mkHeaderDetail (j + 1) c)) := by
  constructor
  · rw [header_details, headerDetailsAux_length, List.length_take]
  · intro j c hc hj
    rw [header_details, headerDetailsAux_get?, List.get?_take hj, hc]
    rw [Nat.add_comm 1 j]
    rfl

/-- Concrete instance: the first detected header cell is mapped at ordinal 1
with its text and placeholders. -/
theorem header_details_capped_witness :
    (header_details ["Water Supply", "Code"]).get? 0
      = some (mkHeaderDetail 1 "Water Supply") :=
  (header_details_capped ["Water Supply", "Code"]).2 0 "Water Supply"
    (by decide) (by decide)

end NZWater
